import Mathlib

/-!
# Verification of the Stardust XR fusion input module

A shallow embedding of `src/fusion/src/input/mod.rs` and
`src/fusion/src/input/tip.rs` (client-side input bindings), together with a
model of the server-side per-frame input dispatch (registry, distance ranker,
capture table, frame dispatcher) which is described in the documentation but
whose code is not part of these two files.

External collaborators (the flexbuffers decoder, the node/messenger plumbing
in `node.rs`, the wire transport) are abstracted into an `Env` record of
oracles; the control flow of the embedded functions follows the Rust source
line by line.
-/

namespace StardustInput

/-- Raw byte payloads (`&[u8]` / `Vec<u8>` in the source). -/
abbrev Bytes := List Nat

/-- Modelled from the spec: `NodeError` lives in `node.rs`, which is not among
the provided sources.  `MapInvalid` is the variant used by the two source files
(`set_datamap`, `TipInputMethod::create`); the remaining variants stand for the
non-validation failures of the node plumbing (dropped client, serialization
failure) that the spec's error taxonomy keeps distinct from `MapInvalid`. -/
inductive NodeError where
  | MapInvalid
  | ClientDropped
  | Serialization
deriving DecidableEq

/-- Modelled from the spec: a scene-graph node (`Node` in `node.rs`, not among
the provided sources) is identified here by its path. -/
structure Node where
  path : String
deriving DecidableEq

/-- A tagged model of an `f32` value, used for the tip radius.  The embedded
code never inspects the radius, so only the distinctions named by the claims
(zero, negative, NaN, infinities, ordinary finite values) are represented. -/
inductive F32 where
  | zero
  | negZero
  | nan
  | inf
  | negInf
  | finite (q : ℚ)
deriving DecidableEq

/-- An opaque pose (`Transform` from the values crate); the embedded code
forwards it without inspecting it. -/
structure Transform where
  tag : Nat
deriving DecidableEq

/-- Deserialized input event payload (`InputData` from the flat schemas crate);
only the `uid` field is read by the embedded code (`handle_input`). -/
structure InputData where
  uid : String
deriving DecidableEq

/-- Observable outward effects of the embedded functions: remote signals and
node creation, in the order the source emits them. -/
inductive Effect where
  | signalRaw (nodePath signal : String) (data : Bytes)
  | signalPath (nodePath signal : String) (arg : String)
  | signalRadius (nodePath signal : String) (radius : F32)
  | createTip (id parentPath : String) (transform : Transform) (radius : F32)
      (datamap : Option Bytes)
deriving DecidableEq

/-- Modelled from the spec: the outcomes of the external collaborators that the
two source files call into but whose code is not among the provided sources —
the flexbuffers decoder (`Reader::get_root` / `get_map`), the node plumbing of
`node.rs` (`Node::client`, `Node::get_path`, `Node::new`,
`send_remote_signal`), the `InputData` deserializer, and the `nanoid` id
generator. -/
structure Env where
  /-- Whether `flexbuffers::Reader::get_root(bytes).and_then(get_map)`
  succeeds, i.e. the bytes decode as a flexbuffer whose root is a map. -/
  rootIsMap : Bytes → Bool
  /-- Failure of `node.client()?` for the node at a given path
  (`none` = success). -/
  clientErr : String → Option NodeError
  /-- Failure of `node.get_path()?` for the node at a given path
  (`none` = success, returning the node's own path). -/
  pathErr : String → Option NodeError
  /-- Failure of `send_remote_signal` / `send_remote_signal_raw` on a given
  node path and signal name (`none` = success). -/
  sendErr : String → String → Option NodeError
  /-- Failure of the `Node::new` call itself, beyond its argument
  evaluation (`none` = success). -/
  nodeNewErr : Option NodeError
  /-- The fresh id produced by `nanoid::nanoid!()`. -/
  freshId : String
  /-- Result of `InputData::deserialize` on a raw payload. -/
  deserialize : Bytes → Option InputData

/-- The call `node.get_path()` (from `node.rs`, modelled through `Env.pathErr`): on
success it returns the node's path. -/
def Node.get_path (env : Env) (n : Node) : Except NodeError String :=
  match env.pathErr n.path with
  | some e => .error e
  | none => .ok n.path

/-- The call `node.client()` (from `node.rs`, modelled through `Env.clientErr`). -/
def Node.client (env : Env) (n : Node) : Except NodeError Unit :=
  match env.clientErr n.path with
  | some e => .error e
  | none => .ok ()

/-- The `send_remote_signal` result on a node, from `Env.sendErr`. -/
def Node.sendResult (env : Env) (n : Node) (signal : String) :
    Except NodeError Unit :=
  match env.sendErr n.path signal with
  | some e => .error e
  | none => .ok ()

/-- The environment never reports `MapInvalid` from the node plumbing: per the
spec's error taxonomy, `MapInvalid` is produced only by datamap validation,
while the plumbing fails with dropped-client/serialization errors. -/
def Env.plumbingNeverMapInvalid (env : Env) : Prop :=
  (∀ p, env.clientErr p ≠ some .MapInvalid) ∧
  (∀ p, env.pathErr p ≠ some .MapInvalid) ∧
  (∀ p s, env.sendErr p s ≠ some .MapInvalid) ∧
  env.nodeNewErr ≠ some .MapInvalid

/-- The datamap validation step shared by `InputMethod::set_datamap` and
`TipInputMethod::create`:
`flexbuffers::Reader::get_root(bytes).and_then(|root| root.get_map())
 .map_err(|_| NodeError::MapInvalid)`. -/
def validateDatamap (env : Env) (datamap : Bytes) : Except NodeError Unit :=
  if env.rootIsMap datamap then .ok () else .error NodeError.MapInvalid

/-- The `if let Some(datamap) = &datamap` validation step of
`TipInputMethod::create` (tip.rs:23-27): validate when a datamap is supplied,
do nothing otherwise. -/
def validateOpt (env : Env) : Option Bytes → Except NodeError Unit
  | some d => validateDatamap env d
  | none => .ok ()

namespace InputMethod

/-- Embeds `InputMethod::set_datamap` (mod.rs:51-56): validate the datamap bytes as a
flexbuffer map, then `self.node().send_remote_signal_raw("set_datamap",
datamap)`.  Returns the Rust result together with the list of emitted remote
signal calls. -/
def set_datamap (env : Env) (node : Node) (datamap : Bytes) :
    Except NodeError Unit × List Effect :=
  match validateDatamap env datamap with
  | .error e => (.error e, [])
  | .ok () =>
    (node.sendResult env "set_datamap",
      [Effect.signalRaw node.path "set_datamap" datamap])

end InputMethod

namespace TipInputMethod

/-- Embeds `TipInputMethod::create` (tip.rs:16-47): generate an id, validate the
optional datamap (`MapInvalid` on failure), then build the node via
`Node::new(&spatial_parent.node.client()?, "/input", "create_input_method_tip",
"/input/method/tip", true, &id, (id, spatial_parent.node().get_path()?,
transform, radius, datamap))`.  Argument evaluation order (client, then parent
path, then the `Node::new` call itself) follows the source.  Returns the Rust
result together with the node-creation effects. -/
def create (env : Env) (spatial_parent : Node) (transform : Transform)
    (radius : F32) (datamap : Option Bytes) :
    Except NodeError Node × List Effect :=
  let id := env.freshId
  match validateOpt env datamap with
  | .error e => (.error e, [])
  | .ok () =>
    match spatial_parent.client env with
    | .error e => (.error e, [])
    | .ok () =>
      match spatial_parent.get_path env with
      | .error e => (.error e, [])
      | .ok parentPath =>
        match env.nodeNewErr with
        | some e => (.error e, [])
        | none =>
          (.ok { path := "/input/method/tip/" ++ id },
            [Effect.createTip id parentPath transform radius datamap])

/-- Embeds `TipInputMethod::set_radius` (tip.rs:50-52):
`self.node.send_remote_signal("set_radius", &radius)` — no inspection of the
radius value whatsoever. -/
def set_radius (env : Env) (node : Node) (radius : F32) :
    Except NodeError Unit × List Effect :=
  (node.sendResult env "set_radius",
    [Effect.signalRadius node.path "set_radius" radius])

end TipInputMethod

/-- Embeds `UnknownInputMethod` (mod.rs:59-62): an aliased node for the input method,
plus the handler through which the event was received. -/
structure UnknownInputMethod where
  spatial : Node
  handler : Node
deriving DecidableEq

namespace UnknownInputMethod

/-- The call `Node::from_path` (from `node.rs`, not among the provided sources): builds
an alias node at the given parent path and name; modelled as path
concatenation. -/
def nodeFromPath (parentPath uid : String) : Node :=
  { path := parentPath ++ "/" ++ uid }

/-- Embeds `UnknownInputMethod::from_path` (mod.rs:64-71):
`Node::from_path(&handler.client()?, handler.node().get_path()?, uid, false)`
— the handler's client is obtained first, then its path, then the alias node
is built. -/
def from_path (env : Env) (handler : Node) (uid : String) :
    Except NodeError UnknownInputMethod :=
  match handler.client env with
  | .error e => .error e
  | .ok () =>
    match handler.get_path env with
    | .error e => .error e
    | .ok hpath => .ok { spatial := nodeFromPath hpath uid, handler := handler }

/-- Embeds `UnknownInputMethod::capture` (mod.rs:72-75):
`self.node().send_remote_signal("capture", &self.handler.node().get_path()?)`
— the handler path argument is evaluated first; on success the "capture"
signal is sent on the method's own node with the handler's path as payload. -/
def capture (env : Env) (m : UnknownInputMethod) :
    Except NodeError Unit × List Effect :=
  match m.handler.get_path env with
  | .error e => (.error e, [])
  | .ok hpath =>
    (m.spatial.sendResult env "capture",
      [Effect.signalPath m.spatial.path "capture" hpath])

end UnknownInputMethod

/-- The return type of the `InputHandlerHandler::input` trait method as
declared in the source (mod.rs:45): `fn input(&mut self, input:
UnknownInputMethod, data: InputData);` — it returns the unit type, although
its own doc comment (mod.rs:44) and the module doc (mod.rs:9) describe a
`true`/`false` capture-intent return value. -/
def InputHandlerHandler.inputReturn : Type := Unit

/-- A handler implementation: mutable state `S`, stepped by each input event,
producing the declared return type of `InputHandlerHandler::input`. -/
def InputHandlerHandler (S : Type) : Type :=
  S → UnknownInputMethod → InputData → S × InputHandlerHandler.inputReturn

namespace InputHandler

/-- Embeds `InputHandler::handle_input` (mod.rs:151-162): deserialize the raw payload
into `InputData` (propagating failure), build an `UnknownInputMethod` from the
handler node and `data.uid` (propagating failure via `?`), then invoke the
wrapped `InputHandlerHandler::input` callback once.  Returns the
`color_eyre::Result` outcome together with the number of times the user
callback was invoked. -/
def handle_input (env : Env) (input_handler : Node) (data : Bytes) :
    Except Unit Unit × Nat :=
  match env.deserialize data with
  | none => (.error (), 0)
  | some d =>
    match UnknownInputMethod.from_path env input_handler d.uid with
    | .error _ => (.error (), 0)
    | .ok _ => (.ok (), 1)

end InputHandler

/-! ## Server-side dispatch engine

The per-frame arbitration engine (registry snapshot, distance ranker, capture
table, frame dispatcher) runs in the Stardust server; its code is not among
the provided sources (only the module documentation in mod.rs:15-18 describes
it).  The definitions below are modelled from the spec. -/

/-- A world point, for the opaque field distance capability. -/
abbrev Point := Int × Int × Int

/-- Modelled from the spec: a Field is an opaque capability exposing a signed
distance from a world point and liveness (`distance(point) -> scalar`,
`is_alive() -> bool`); fields are consumed, not implemented, by the engine. -/
structure Field where
  alive : Bool
  distAt : Point → Int

/-- Modelled from the spec: a registered input handler as the engine sees it —
its registration index (registration order), its guarding field, and its
capture response (`InputHandlerHandler`-style capture intent per method id)
for the current frame. -/
structure SHandler where
  regIndex : Nat
  field : Field
  captureIntent : Nat → Bool

/-- Modelled from the spec: an input method as the engine sees it — its id and
its kind-specific reference point for distance ranking. -/
structure SMethod where
  id : Nat
  refPoint : Point

/-- Modelled from the spec: a Capture Table value —
`{Uncaptured | CapturedBy(HandlerId, since_frame)}`. -/
inductive CaptureState where
  | Uncaptured
  | CapturedBy (handlerId : Nat) (sinceFrame : Nat)
deriving DecidableEq

/-- Whether a capture state is a `CapturedBy` entry. -/
def CaptureState.isCapturedBy : CaptureState → Bool
  | .Uncaptured => false
  | .CapturedBy _ _ => true

/-- Modelled from the spec: the Capture Table, a per-input-method record keyed
by method id. -/
abbrev Table := List (Nat × CaptureState)

/-- Look up a method's capture entry; absence reads as `Uncaptured`. -/
def tableGet (t : Table) (mid : Nat) : CaptureState :=
  match t.find? (fun e => e.1 == mid) with
  | some e => e.2
  | none => .Uncaptured

/-- Write a method's capture entry, replacing an existing entry for the same
method id (never duplicating a key). -/
def tableSet (t : Table) (mid : Nat) (s : CaptureState) : Table :=
  if (t.map Prod.fst).contains mid then
    t.map (fun e => if e.1 == mid then (mid, s) else e)
  else
    t ++ [(mid, s)]

/-- The onion-skin ranking key (spec 4.2): absolute value of the signed field
distance at the method's reference point. -/
def absDist (m : SMethod) (h : SHandler) : Nat :=
  (h.field.distAt m.refPoint).natAbs

/-- The ranking order (spec 4.2): ascending by absolute distance, ties broken
by registration order. -/
def rankLE (m : SMethod) (a b : SHandler) : Prop :=
  absDist m a < absDist m b ∨ (absDist m a = absDist m b ∧ a.regIndex ≤ b.regIndex)

instance (m : SMethod) : DecidableRel (rankLE m) := fun a b => by
  unfold rankLE; infer_instance

instance (m : SMethod) : IsTotal SHandler (rankLE m) where
  total a b := by
    unfold rankLE
    rcases Nat.lt_trichotomy (absDist m a) (absDist m b) with h | h | h
    · exact Or.inl (Or.inl h)
    · rcases Nat.le_total a.regIndex b.regIndex with hr | hr
      · exact Or.inl (Or.inr ⟨h, hr⟩)
      · exact Or.inr (Or.inr ⟨h.symm, hr⟩)
    · exact Or.inr (Or.inl h)

instance (m : SMethod) : IsTrans SHandler (rankLE m) where
  trans a b c hab hbc := by
    unfold rankLE at *
    rcases hab with h1 | ⟨h1, h1r⟩ <;> rcases hbc with h2 | ⟨h2, h2r⟩
    · exact Or.inl (h1.trans h2)
    · exact Or.inl (h2 ▸ h1)
    · exact Or.inl (h1 ▸ h2)
    · exact Or.inr ⟨h1.trans h2, h1r.trans h2r⟩

/-- Modelled from the spec: the Distance Ranker (spec 4.2, mod.rs:16) —
exclude handlers whose field is dead, then sort ascending by onion-skin
distance with stable registration-order tie-break (a deterministic insertion
sort under the total order `rankLE`). -/
def rank (m : SMethod) (handlers : List SHandler) : List SHandler :=
  List.insertionSort (rankLE m) (handlers.filter (fun h => h.field.alive))

/-- An event in the per-frame delivery trace: an input delivery to a handler,
or the frame lifecycle event to a handler (`toHandler = true`) or to a method
(`toHandler = false`). -/
inductive Event where
  | input (handlerId methodId : Nat)
  | frameEvent (toHandler : Bool) (nodeId : Nat)
deriving DecidableEq

/-- Whether an event is an input delivery. -/
def Event.isInput : Event → Bool
  | .input _ _ => true
  | .frameEvent _ _ => false

/-- Whether an event is a frame lifecycle event. -/
def Event.isFrame : Event → Bool
  | .input _ _ => false
  | .frameEvent _ _ => true

/-- Modelled from the spec: deliver the input event to ranked candidates in
order until one signals capture intent (spec 4.3 step 3); returns the
delivery trace and the capturing handler, if any. -/
def deliverRanked (mid : Nat) : List SHandler → List Event × Option Nat
  | [] => ([], none)
  | h :: rest =>
    if h.captureIntent mid then
      ([Event.input h.regIndex mid], some h.regIndex)
    else
      (Event.input h.regIndex mid :: (deliverRanked mid rest).1,
        (deliverRanked mid rest).2)

/-- Whether the capture table names a live, active capturer for the method
(spec 4.3 step 1). -/
def liveCapturer (handlers : List SHandler) (t : Table) (mid : Nat) :
    Option Nat :=
  match tableGet t mid with
  | .Uncaptured => none
  | .CapturedBy hid _ =>
    if handlers.any (fun h => h.regIndex == hid && h.field.alive) then
      some hid
    else
      none

/-- Modelled from the spec: per-method dispatch (spec 4.3 steps 1-3, mod.rs:
15-17).  A captured method with a live, active capturer goes straight to its
capturer; otherwise candidates are ranked and delivered to in order until one
captures (writing `CapturedBy(handler, frame)`), or the ordering is exhausted
(clearing the entry to `Uncaptured`). -/
def dispatchMethod (frame : Nat) (handlers : List SHandler) (t : Table)
    (m : SMethod) : Table × List Event :=
  match liveCapturer handlers t m.id with
  | some hid => (t, [Event.input hid m.id])
  | none =>
    match (deliverRanked m.id (rank m handlers)).2 with
    | some hid =>
      (tableSet t m.id (.CapturedBy hid frame),
        (deliverRanked m.id (rank m handlers)).1)
    | none =>
      (tableSet t m.id .Uncaptured, (deliverRanked m.id (rank m handlers)).1)

/-- Modelled from the spec: dispatch every live method in turn, threading the
capture table and accumulating the delivery trace. -/
def dispatchMethods (frame : Nat) (handlers : List SHandler) :
    Table → List SMethod → Table × List Event
  | t, [] => (t, [])
  | t, m :: ms =>
    ((dispatchMethods frame handlers (dispatchMethod frame handlers t m).1
        ms).1,
      (dispatchMethod frame handlers t m).2 ++
        (dispatchMethods frame handlers (dispatchMethod frame handlers t m).1
          ms).2)

/-- Modelled from the spec: the Frame Dispatcher for one frame (spec 4.3,
mod.rs:15-18) — process every method, then emit the frame lifecycle event to
every live handler and method exactly once, after all input events. -/
def dispatchFrame (frame : Nat) (handlers : List SHandler)
    (methods : List SMethod) (t : Table) : Table × List Event :=
  ((dispatchMethods frame handlers t methods).1,
    (dispatchMethods frame handlers t methods).2 ++
      (handlers.map (fun h => Event.frameEvent true h.regIndex) ++
        methods.map (fun m => Event.frameEvent false m.id)))

/-- Well-formedness of the capture table: one entry per method id. -/
def keysNodup (t : Table) : Prop := (t.map Prod.fst).Nodup

/-- The number of `CapturedBy` entries a table holds for a given method. -/
def capturedCount (t : Table) (mid : Nat) : Nat :=
  (t.filter (fun e => e.1 == mid && e.2.isCapturedBy)).length

/-- The per-frame delivery trace of the Frame Dispatcher. -/
def frameTrace (frame : Nat) (handlers : List SHandler)
    (methods : List SMethod) (t : Table) : List Event :=
  (dispatchFrame frame handlers methods t).2

/-! ## Concrete example environments and entities, used by the witnesses -/

/-- A benign environment: every plumbing call succeeds, the flexbuffer root is
a map exactly when the payload is the single byte 1, and deserialization
succeeds exactly on the single byte 7. -/
def envOk : Env where
  rootIsMap := fun b => b == [1]
  clientErr := fun _ => none
  pathErr := fun _ => none
  sendErr := fun _ _ => none
  nodeNewErr := none
  freshId := "id0"
  deserialize := fun b => if b == [7] then some { uid := "u0" } else none

theorem envOk_plumbing : envOk.plumbingNeverMapInvalid := by
  refine ⟨fun p => ?_, fun p => ?_, fun p s => ?_, ?_⟩ <;> simp [envOk]

/-- An environment in which deserialization always succeeds but every
`get_path` call fails with `ClientDropped`. -/
def envPathDown : Env where
  rootIsMap := fun _ => true
  clientErr := fun _ => none
  pathErr := fun _ => some .ClientDropped
  sendErr := fun _ _ => none
  nodeNewErr := none
  freshId := "id0"
  deserialize := fun _ => some { uid := "u0" }

/-- Example nodes. -/
def nodeEx : Node := { path := "/input/method/tip/m0" }

def handlerNodeEx : Node := { path := "/input/handler/h0" }

/-- An example input method at the origin. -/
def mEx : SMethod := { id := 0, refPoint := (0, 0, 0) }

/-- Example handler at distance 5, registered first, never capturing. -/
def hEx0 : SHandler :=
  { regIndex := 0
    field := { alive := true, distAt := fun _ => 5 }
    captureIntent := fun _ => false }

/-- Example handler at signed distance -2 (onion-skin distance 2), registered
second, capturing every method. -/
def hEx1 : SHandler :=
  { regIndex := 1
    field := { alive := true, distAt := fun _ => -2 }
    captureIntent := fun _ => true }

/-- Example handler with a dead field. -/
def hEx2 : SHandler :=
  { regIndex := 2
    field := { alive := false, distAt := fun _ => 0 }
    captureIntent := fun _ => false }

/-! ## Claim theorems -/

/-- C1: `set_datamap` returns `Err(MapInvalid)` if and only if the bytes do
not decode as a flexbuffer whose root is a map; when the root does decode as a
map, the datamap is forwarded via the `set_datamap` remote signal.  The node
plumbing (modelled, not in the provided sources) never itself reports
`MapInvalid`. -/
theorem set_datamap_mapInvalid_iff (env : Env) (node : Node) (datamap : Bytes)
    (h : env.plumbingNeverMapInvalid) :
    ((InputMethod.set_datamap env node datamap).1 =
        .error NodeError.MapInvalid ↔ env.rootIsMap datamap = false) ∧
    (env.rootIsMap datamap = true →
      Effect.signalRaw node.path "set_datamap" datamap ∈
        (InputMethod.set_datamap env node datamap).2) := by
  have hsend := h.2.2.1 node.path "set_datamap"
  cases hroot : env.rootIsMap datamap with
  | false =>
    simp [InputMethod.set_datamap, validateDatamap, hroot]
  | true =>
    cases hs : env.sendErr node.path "set_datamap" with
    | none =>
      simp [InputMethod.set_datamap, validateDatamap, Node.sendResult, hroot, hs]
    | some e =>
      have he : e ≠ NodeError.MapInvalid := fun hc => hsend (hc ▸ hs)
      simp [InputMethod.set_datamap, validateDatamap, Node.sendResult, hroot,
        hs, he]

/-- Witness for C1 at a concrete environment, node and payload. -/
theorem set_datamap_mapInvalid_iff_witness :
    ((InputMethod.set_datamap envOk nodeEx [1]).1 =
        .error NodeError.MapInvalid ↔ envOk.rootIsMap [1] = false) ∧
    (envOk.rootIsMap [1] = true →
      Effect.signalRaw nodeEx.path "set_datamap" [1] ∈
        (InputMethod.set_datamap envOk nodeEx [1]).2) :=
  set_datamap_mapInvalid_iff envOk nodeEx [1] envOk_plumbing

/-- C2: the source declares `InputHandlerHandler::input` with no return value
(mod.rs:45), although its doc comment (mod.rs:44) and the module documentation
(mod.rs:9) state that returning `true` captures the input method.  The
declared return type has exactly one value, so a handler's response through it
cannot indicate capture intent; capture is requested out-of-band through
`UnknownInputMethod::capture`. -/
theorem input_return_carries_no_capture_bit :
    ∀ (S : Type) (hh : InputHandlerHandler S) (s₁ s₂ : S)
      (m₁ m₂ : UnknownInputMethod) (d₁ d₂ : InputData),
      (hh s₁ m₁ d₁).2 = (hh s₂ m₂ d₂).2 := by
  intro S hh s₁ s₂ m₁ m₂ d₁ d₂
  rfl

/-- C3: a malformed datamap is rejected synchronously with `MapInvalid` and
causes no state change: `set_datamap` emits no remote signal, and
`TipInputMethod::create` creates no node and emits nothing, so a malformed
datamap is never visible to any handler. -/
theorem malformed_datamap_rejected_without_effects (env : Env)
    (node parent : Node) (transform : Transform) (radius : F32) (bytes : Bytes)
    (h : env.rootIsMap bytes = false) :
    InputMethod.set_datamap env node bytes =
      (.error NodeError.MapInvalid, []) ∧
    TipInputMethod.create env parent transform radius (some bytes) =
      (.error NodeError.MapInvalid, []) := by
  have hv : validateOpt env (some bytes) = .error NodeError.MapInvalid := by
    simp [validateOpt, validateDatamap, h]
  constructor
  · simp [InputMethod.set_datamap, validateDatamap, h]
  · simp [TipInputMethod.create, hv]

/-- Witness for C3 at a concrete environment and payload (the byte 0 does not
decode as a map under `envOk`). -/
theorem malformed_datamap_rejected_without_effects_witness :
    InputMethod.set_datamap envOk nodeEx [0] =
      (.error NodeError.MapInvalid, []) ∧
    TipInputMethod.create envOk handlerNodeEx { tag := 0 } F32.nan
        (some [0]) =
      (.error NodeError.MapInvalid, []) :=
  malformed_datamap_rejected_without_effects envOk nodeEx handlerNodeEx
    { tag := 0 } F32.nan [0] (by simp [envOk])

/-- C7: an `UnknownInputMethod` built by `from_path` from handler `H` and the
event's uid carries `H` itself, its node lives at `H`'s path extended by the
uid, and `capture()` sends exactly one "capture" signal, on that method node,
with exactly `H`'s node path as the argument. -/
theorem capture_names_method_and_handler (env : Env) (handler : Node)
    (uid : String) (m : UnknownInputMethod)
    (h : UnknownInputMethod.from_path env handler uid = .ok m) :
    m.handler = handler ∧
    m.spatial.path = handler.path ++ "/" ++ uid ∧
    (UnknownInputMethod.capture env m).2 =
      [Effect.signalPath (handler.path ++ "/" ++ uid) "capture"
        handler.path] := by
  cases hc : env.clientErr handler.path with
  | some e =>
    simp [UnknownInputMethod.from_path, Node.client, hc] at h
  | none =>
    cases hp : env.pathErr handler.path with
    | some e =>
      simp [UnknownInputMethod.from_path, Node.client, Node.get_path, hc,
        hp] at h
    | none =>
      simp only [UnknownInputMethod.from_path, Node.client, Node.get_path, hc,
        hp, Except.ok.injEq] at h
      subst h
      refine ⟨rfl, rfl, ?_⟩
      simp [UnknownInputMethod.capture, Node.get_path, hp,
        UnknownInputMethod.nodeFromPath, Node.sendResult]

/-- Witness for C7 at a concrete environment, handler node and uid. -/
theorem capture_names_method_and_handler_witness :
    ({ spatial := { path := "/input/handler/h0/u0" },
       handler := handlerNodeEx } : UnknownInputMethod).handler =
        handlerNodeEx ∧
    ({ spatial := { path := "/input/handler/h0/u0" },
       handler := handlerNodeEx } : UnknownInputMethod).spatial.path =
        handlerNodeEx.path ++ "/" ++ "u0" ∧
    (UnknownInputMethod.capture envOk
      { spatial := { path := "/input/handler/h0/u0" },
        handler := handlerNodeEx }).2 =
      [Effect.signalPath (handlerNodeEx.path ++ "/" ++ "u0") "capture"
        handlerNodeEx.path] :=
  capture_names_method_and_handler envOk handlerNodeEx "u0"
    { spatial := { path := "/input/handler/h0/u0" }, handler := handlerNodeEx }
    rfl

/-- Helper: once the optional datamap validation has passed,
`TipInputMethod::create` either fails with the error of one of the three
plumbing calls (client, parent path, `Node::new`) while emitting nothing, or
succeeds, creating the tip node with the generated id, parent path, transform,
radius and datamap. -/
theorem tip_create_cases (env : Env) (parent : Node) (transform : Transform)
    (radius : F32) (datamap : Option Bytes)
    (hval : validateOpt env datamap = .ok ()) :
    (∃ e, (env.clientErr parent.path = some e ∨
        (env.clientErr parent.path = none ∧
          env.pathErr parent.path = some e) ∨
        (env.clientErr parent.path = none ∧ env.pathErr parent.path = none ∧
          env.nodeNewErr = some e)) ∧
      TipInputMethod.create env parent transform radius datamap =
        (.error e, [])) ∨
    (TipInputMethod.create env parent transform radius datamap =
      (.ok { path := "/input/method/tip/" ++ env.freshId },
        [Effect.createTip env.freshId parent.path transform radius
          datamap])) := by
  cases hc : env.clientErr parent.path with
  | some e =>
    refine Or.inl ⟨e, Or.inl rfl, ?_⟩
    simp [TipInputMethod.create, hval, Node.client, hc]
  | none =>
    cases hp : env.pathErr parent.path with
    | some e =>
      refine Or.inl ⟨e, Or.inr (Or.inl ⟨rfl, rfl⟩), ?_⟩
      simp [TipInputMethod.create, hval, Node.client, Node.get_path, hc, hp]
    | none =>
      cases hn : env.nodeNewErr with
      | some e =>
        refine Or.inl ⟨e, Or.inr (Or.inr ⟨rfl, rfl, rfl⟩), ?_⟩
        simp [TipInputMethod.create, hval, Node.client, Node.get_path, hc,
          hp, hn]
      | none =>
        refine Or.inr ?_
        simp [TipInputMethod.create, hval, Node.client, Node.get_path, hc,
          hp, hn]

/-- Helper: under a plumbing that never reports `MapInvalid`, the error named
by `tip_create_cases` is not `MapInvalid`. -/
theorem plumbing_error_ne_mapInvalid (env : Env) (p : String) (e : NodeError)
    (hcl : ∀ q, env.clientErr q ≠ some NodeError.MapInvalid)
    (hpa : ∀ q, env.pathErr q ≠ some NodeError.MapInvalid)
    (hnn : env.nodeNewErr ≠ some NodeError.MapInvalid)
    (he : env.clientErr p = some e ∨
      (env.clientErr p = none ∧ env.pathErr p = some e) ∨
      (env.clientErr p = none ∧ env.pathErr p = none ∧
        env.nodeNewErr = some e)) :
    e ≠ NodeError.MapInvalid := by
  rcases he with hc | ⟨-, hp⟩ | ⟨-, -, hn⟩
  · exact fun hh => hcl p (hh ▸ hc)
  · exact fun hh => hpa p (hh ▸ hp)
  · exact fun hh => hnn (hh ▸ hn)

/-- C8: `TipInputMethod::create` with `Some(bytes)` fails with `MapInvalid`
if and only if the bytes do not decode as a flexbuffer map; with `None` it
cannot fail with `MapInvalid`; and on success it creates the method node with
the generated id, the parent's path, the transform, the radius and the
datamap.  The node plumbing (modelled, not in the provided sources) never
itself reports `MapInvalid`. -/
theorem tip_create_validation_and_creation (env : Env) (parent : Node)
    (transform : Transform) (radius : F32) (datamap : Option Bytes)
    (h : env.plumbingNeverMapInvalid) :
    (∀ b, datamap = some b →
      ((TipInputMethod.create env parent transform radius datamap).1 =
          .error NodeError.MapInvalid ↔ env.rootIsMap b = false)) ∧
    (datamap = none →
      (TipInputMethod.create env parent transform radius datamap).1 ≠
        .error NodeError.MapInvalid) ∧
    (∀ node,
      (TipInputMethod.create env parent transform radius datamap).1 =
          .ok node →
      node.path = "/input/method/tip/" ++ env.freshId ∧
      (TipInputMethod.create env parent transform radius datamap).2 =
        [Effect.createTip env.freshId parent.path transform radius
          datamap]) := by
  obtain ⟨hcl, hpa, -, hnn⟩ := h
  refine ⟨?_, ?_, ?_⟩
  · rintro b rfl
    cases hroot : env.rootIsMap b with
    | false =>
      simp [TipInputMethod.create, validateOpt, validateDatamap, hroot]
    | true =>
      have hval : validateOpt env (some b) = .ok () := by
        simp [validateOpt, validateDatamap, hroot]
      rcases tip_create_cases env parent transform radius (some b) hval with
        ⟨e, he, hres⟩ | hres
      · have hne := plumbing_error_ne_mapInvalid env parent.path e hcl hpa
          hnn he
        rw [hres]
        simp [hne]
      · rw [hres]
        simp
  · rintro rfl
    rcases tip_create_cases env parent transform radius none rfl with
      ⟨e, he, hres⟩ | hres
    · have hne := plumbing_error_ne_mapInvalid env parent.path e hcl hpa
        hnn he
      rw [hres]
      simp [hne]
    · rw [hres]
      simp
  · intro node hnode
    have hval : validateOpt env datamap = .ok () := by
      cases hv : validateOpt env datamap with
      | ok u => cases u; rfl
      | error e =>
        have hbad :
            (TipInputMethod.create env parent transform radius datamap).1 =
              .error e := by
          simp [TipInputMethod.create, hv]
        rw [hnode] at hbad
        simp at hbad
    rcases tip_create_cases env parent transform radius datamap hval with
      ⟨e, -, hres⟩ | hres
    · rw [hres] at hnode
      simp at hnode
    · rw [hres] at hnode
      simp only [Except.ok.injEq] at hnode
      subst hnode
      exact ⟨rfl, by rw [hres]⟩

/-- Witness for C8 at a concrete environment, parent and datamap. -/
theorem tip_create_validation_and_creation_witness :
    (∀ b, (some [1] : Option Bytes) = some b →
      ((TipInputMethod.create envOk handlerNodeEx { tag := 3 } F32.zero
          (some [1])).1 = .error NodeError.MapInvalid ↔
        envOk.rootIsMap b = false)) ∧
    ((some [1] : Option Bytes) = none →
      (TipInputMethod.create envOk handlerNodeEx { tag := 3 } F32.zero
          (some [1])).1 ≠ .error NodeError.MapInvalid) ∧
    (∀ node,
      (TipInputMethod.create envOk handlerNodeEx { tag := 3 } F32.zero
          (some [1])).1 = .ok node →
      node.path = "/input/method/tip/" ++ envOk.freshId ∧
      (TipInputMethod.create envOk handlerNodeEx { tag := 3 } F32.zero
          (some [1])).2 =
        [Effect.createTip envOk.freshId handlerNodeEx.path { tag := 3 }
          F32.zero (some [1])]) :=
  tip_create_validation_and_creation envOk handlerNodeEx { tag := 3 } F32.zero
    (some [1]) envOk_plumbing

/-- C9 (counterexample to the claim as stated): with every `get_path` call
failing (`envPathDown`), a payload that deserializes successfully still never
reaches the user callback — `handle_input` errors out of the
`UnknownInputMethod::from_path` call after deserialization, invoking the
callback zero times.  So "invoked exactly once if and only if the raw payload
deserializes" is false. -/
theorem handle_input_deserialize_not_sufficient :
    (envPathDown.deserialize [7]).isSome = true ∧
    (InputHandler.handle_input envPathDown handlerNodeEx [7]).2 = 0 ∧
    (InputHandler.handle_input envPathDown handlerNodeEx [7]).1 =
      .error () := by
  exact ⟨rfl, rfl, rfl⟩

/-- C9 (amended): the wrapped callback is invoked exactly once if and only if
the raw payload deserializes into `InputData` and the `UnknownInputMethod` for
the event can be built from the handler node (its client and path are
available); it is never invoked more than once; when deserialization fails
`handle_input` returns an error with the callback never invoked; and
`handle_input` succeeds exactly when the callback was invoked. -/
theorem handle_input_invokes_once_iff (env : Env) (input_handler : Node)
    (data : Bytes) :
    ((InputHandler.handle_input env input_handler data).2 = 1 ↔
      ∃ d, env.deserialize data = some d ∧
        ∃ m, UnknownInputMethod.from_path env input_handler d.uid = .ok m) ∧
    (InputHandler.handle_input env input_handler data).2 ≤ 1 ∧
    (env.deserialize data = none →
      InputHandler.handle_input env input_handler data = (.error (), 0)) ∧
    ((InputHandler.handle_input env input_handler data).1 = .ok () ↔
      (InputHandler.handle_input env input_handler data).2 = 1) := by
  cases hd : env.deserialize data with
  | none =>
    simp [InputHandler.handle_input, hd]
  | some d =>
    cases hm : UnknownInputMethod.from_path env input_handler d.uid with
    | error e =>
      simp [InputHandler.handle_input, hd, hm]
    | ok m =>
      refine ⟨?_, ?_, ?_, ?_⟩ <;>
        simp [InputHandler.handle_input, hd, hm]

/-- Witness for C9 (amended) at a concrete environment, handler and payload. -/
theorem handle_input_invokes_once_iff_witness :
    ((InputHandler.handle_input envOk handlerNodeEx [7]).2 = 1 ↔
      ∃ d, envOk.deserialize [7] = some d ∧
        ∃ m, UnknownInputMethod.from_path envOk handlerNodeEx d.uid =
          .ok m) ∧
    (InputHandler.handle_input envOk handlerNodeEx [7]).2 ≤ 1 ∧
    (envOk.deserialize [7] = none →
      InputHandler.handle_input envOk handlerNodeEx [7] = (.error (), 0)) ∧
    ((InputHandler.handle_input envOk handlerNodeEx [7]).1 = .ok () ↔
      (InputHandler.handle_input envOk handlerNodeEx [7]).2 = 1) :=
  handle_input_invokes_once_iff envOk handlerNodeEx [7]

/-- C10: `set_radius` performs no validation of the radius: for every modelled
f32 value (zero, negative zero, NaN, the infinities, any finite value) it
sends the `set_radius` signal carrying that radius, its result does not depend
on the radius at all, it succeeds exactly when the underlying signal send
succeeds, and any error it returns is the signal-send failure itself. -/
theorem set_radius_no_validation (env : Env) (node : Node) (radius : F32) :
    (TipInputMethod.set_radius env node radius).2 =
      [Effect.signalRadius node.path "set_radius" radius] ∧
    (∀ radius', (TipInputMethod.set_radius env node radius').1 =
      (TipInputMethod.set_radius env node radius).1) ∧
    ((TipInputMethod.set_radius env node radius).1 = .ok () ↔
      env.sendErr node.path "set_radius" = none) ∧
    (∀ e, (TipInputMethod.set_radius env node radius).1 = .error e →
      env.sendErr node.path "set_radius" = some e) := by
  refine ⟨rfl, fun radius' => rfl, ?_, fun e => ?_⟩ <;>
  · cases hs : env.sendErr node.path "set_radius" <;>
      simp [TipInputMethod.set_radius, Node.sendResult, hs]

/-- C5: the Distance Ranker's output is sorted under `rankLE` — ascending by
onion-skin (absolute-value) field distance with ties broken by registration
order — it is a permutation of the active (live-field) handlers, and it is
deterministic: identical inputs give identical orderings. -/
theorem distance_ranker_sorted_stable_deterministic (m m' : SMethod)
    (handlers handlers' : List SHandler) (hm : m' = m)
    (hh : handlers' = handlers) :
    List.Sorted (rankLE m) (rank m handlers) ∧
    (rank m handlers).Perm (handlers.filter (fun h => h.field.alive)) ∧
    rank m' handlers' = rank m handlers := by
  subst hm
  subst hh
  exact ⟨List.sorted_insertionSort _ _, List.perm_insertionSort _ _, rfl⟩

/-- Witness for C5 on three concrete handlers (distances 5, |-2|, dead). -/
theorem distance_ranker_sorted_stable_deterministic_witness :
    List.Sorted (rankLE mEx) (rank mEx [hEx0, hEx1, hEx2]) ∧
    (rank mEx [hEx0, hEx1, hEx2]).Perm
      ([hEx0, hEx1, hEx2].filter (fun h => h.field.alive)) ∧
    rank mEx [hEx0, hEx1, hEx2] = rank mEx [hEx0, hEx1, hEx2] :=
  distance_ranker_sorted_stable_deterministic mEx mEx [hEx0, hEx1, hEx2]
    [hEx0, hEx1, hEx2] rfl rfl

/-- Helper: `tableSet` leaves the key list unchanged when the key is present
and appends it when absent. -/
theorem tableSet_keys (t : Table) (mid : Nat) (s : CaptureState) :
    (tableSet t mid s).map Prod.fst =
      if (t.map Prod.fst).contains mid then t.map Prod.fst
      else t.map Prod.fst ++ [mid] := by
  unfold tableSet
  by_cases hc : (t.map Prod.fst).contains mid
  · rw [if_pos hc, if_pos hc, List.map_map]
    apply List.map_congr_left
    intro e he
    by_cases hme : (e.1 == mid) = true
    · have heq : e.1 = mid := by simpa using hme
      simp [hme, heq]
    · have heq : ¬e.1 = mid := by simpa using hme
      simp [heq]
  · rw [if_neg hc, if_neg hc, List.map_append]
    rfl

/-- Helper: `tableSet` preserves key uniqueness of the capture table. -/
theorem tableSet_keysNodup (t : Table) (mid : Nat) (s : CaptureState)
    (h : keysNodup t) : keysNodup (tableSet t mid s) := by
  unfold keysNodup at *
  rw [tableSet_keys]
  by_cases hc : (t.map Prod.fst).contains mid
  · rw [if_pos hc]
    exact h
  · rw [if_neg hc]
    have hmem : mid ∉ t.map Prod.fst := by simpa using hc
    simp [List.nodup_append, h, hmem]

/-- Helper: per-method dispatch preserves key uniqueness of the capture
table. -/
theorem dispatchMethod_keysNodup (frame : Nat) (handlers : List SHandler)
    (t : Table) (m : SMethod) (h : keysNodup t) :
    keysNodup (dispatchMethod frame handlers t m).1 := by
  unfold dispatchMethod
  cases liveCapturer handlers t m.id with
  | some hid => exact h
  | none =>
    cases (deliverRanked m.id (rank m handlers)).2 with
    | some hid => exact tableSet_keysNodup t m.id _ h
    | none => exact tableSet_keysNodup t m.id _ h

/-- Helper: dispatching a list of methods preserves key uniqueness of the
capture table. -/
theorem dispatchMethods_keysNodup (frame : Nat) (handlers : List SHandler)
    (ms : List SMethod) :
    ∀ t, keysNodup t → keysNodup (dispatchMethods frame handlers t ms).1 := by
  induction ms with
  | nil =>
    intro t h
    simpa [dispatchMethods] using h
  | cons m ms ih =>
    intro t h
    simp only [dispatchMethods]
    exact ih _ (dispatchMethod_keysNodup frame handlers t m h)

/-- Helper: with unique keys, a capture table has at most one entry for any
method id. -/
theorem filter_key_length_le_one (t : Table) (mid : Nat) (h : keysNodup t) :
    (t.filter (fun e => e.1 == mid)).length ≤ 1 := by
  induction t with
  | nil => simp
  | cons e es ih =>
    unfold keysNodup at h
    simp only [List.map_cons, List.nodup_cons] at h
    obtain ⟨hnotin, hnd⟩ := h
    by_cases hme : (e.1 == mid) = true
    · have heq : e.1 = mid := by simpa using hme
      have hes : es.filter (fun e' => e'.1 == mid) = [] := by
        rw [List.filter_eq_nil_iff]
        intro a ha
        have : a.1 ≠ mid := fun hmid => hnotin (heq ▸ hmid ▸
          List.mem_map_of_mem Prod.fst ha)
        simpa using this
      simp [List.filter_cons, hme, hes]
    · simp only [List.filter_cons, hme, Bool.false_eq_true, if_false]
      exact ih hnd

/-- Helper: the `CapturedBy` entries for a method are among its table
entries. -/
theorem capturedCount_le (t : Table) (mid : Nat) :
    capturedCount t mid ≤ (t.filter (fun e => e.1 == mid)).length := by
  unfold capturedCount
  induction t with
  | nil => simp
  | cons e es ih =>
    by_cases h1 : (e.1 == mid) = true <;>
      by_cases h2 : e.2.isCapturedBy = true <;>
        simp [List.filter_cons, h1, h2] <;> omega

/-- C4: after one full frame of dispatch from any well-formed capture table,
the capture table still has unique method keys, and in particular it holds at
most one `CapturedBy` entry for the given method: no input method is ever
captured by two handlers at once. -/
theorem capture_table_at_most_one (frame : Nat) (handlers : List SHandler)
    (methods : List SMethod) (t : Table) (mid : Nat) (h : keysNodup t) :
    keysNodup (dispatchFrame frame handlers methods t).1 ∧
    capturedCount (dispatchFrame frame handlers methods t).1 mid ≤ 1 := by
  have hk : keysNodup (dispatchFrame frame handlers methods t).1 := by
    simpa [dispatchFrame] using
      dispatchMethods_keysNodup frame handlers methods t h
  exact ⟨hk, le_trans (capturedCount_le _ mid)
    (filter_key_length_le_one _ mid hk)⟩

/-- Witness for C4 on a concrete frame: two live handlers, one method, empty
initial table. -/
theorem capture_table_at_most_one_witness :
    keysNodup (dispatchFrame 1 [hEx0, hEx1] [mEx] []).1 ∧
    capturedCount (dispatchFrame 1 [hEx0, hEx1] [mEx] []).1 0 ≤ 1 :=
  capture_table_at_most_one 1 [hEx0, hEx1] [mEx] [] 0 (by simp [keysNodup])

/-- Helper: an input event is not a frame event. -/
theorem event_isInput_not_isFrame (e : Event) (h : e.isInput = true) :
    e.isFrame = false := by
  cases e with
  | input h' m => rfl
  | frameEvent b n => simp [Event.isInput] at h

/-- Helper: a frame event is not an input event. -/
theorem event_isFrame_not_isInput (e : Event) (h : e.isFrame = true) :
    e.isInput = false := by
  cases e with
  | input h' m => simp [Event.isFrame] at h
  | frameEvent b n => rfl

/-- Helper: ranked delivery produces input events only. -/
theorem deliverRanked_events_input (mid : Nat) (hs : List SHandler) :
    ∀ e ∈ (deliverRanked mid hs).1, e.isInput = true := by
  induction hs with
  | nil => simp [deliverRanked]
  | cons h rest ih =>
    intro e he
    by_cases hc : h.captureIntent mid = true
    · simp only [deliverRanked, hc, if_true, List.mem_singleton] at he
      subst he
      rfl
    · simp only [deliverRanked, hc, Bool.false_eq_true, if_false,
        List.mem_cons] at he
      rcases he with he | he
      · subst he
        rfl
      · exact ih e he

/-- Helper: per-method dispatch produces input events only. -/
theorem dispatchMethod_events_input (frame : Nat) (handlers : List SHandler)
    (t : Table) (m : SMethod) :
    ∀ e ∈ (dispatchMethod frame handlers t m).2, e.isInput = true := by
  unfold dispatchMethod
  cases liveCapturer handlers t m.id with
  | some hid =>
    intro e he
    simp only [List.mem_singleton] at he
    subst he
    rfl
  | none =>
    cases (deliverRanked m.id (rank m handlers)).2 with
    | some hid => exact deliverRanked_events_input m.id (rank m handlers)
    | none => exact deliverRanked_events_input m.id (rank m handlers)

/-- Helper: the whole per-frame input phase produces input events only. -/
theorem dispatchMethods_events_input (frame : Nat) (handlers : List SHandler)
    (ms : List SMethod) :
    ∀ t, ∀ e ∈ (dispatchMethods frame handlers t ms).2, e.isInput = true := by
  induction ms with
  | nil =>
    intro t e he
    simp [dispatchMethods] at he
  | cons m ms ih =>
    intro t e he
    simp only [dispatchMethods, List.mem_append] at he
    rcases he with he | he
    · exact dispatchMethod_events_input frame handlers t m e he
    · exact ih _ e he

/-- Helper: the frame phase of the trace produces frame events only. -/
theorem framePart_events_frame (handlers : List SHandler)
    (methods : List SMethod) :
    ∀ e ∈ (handlers.map (fun h => Event.frameEvent true h.regIndex) ++
      methods.map (fun m => Event.frameEvent false m.id)),
      e.isFrame = true := by
  intro e he
  simp only [List.mem_append, List.mem_map] at he
  rcases he with ⟨h, -, rfl⟩ | ⟨m, -, rfl⟩ <;> rfl

/-- C6: in a frame's delivery trace, the frame lifecycle event reaches the
given live handler exactly once and the given live method exactly once, and
every frame event is strictly after every input event: no handler observes
the frame tick before that frame's input. -/
theorem frame_lifecycle_after_inputs (frame : Nat) (handlers : List SHandler)
    (methods : List SMethod) (t : Table)
    (hnd : (handlers.map SHandler.regIndex).Nodup)
    (mnd : (methods.map SMethod.id).Nodup)
    (h : SHandler) (hmem : h ∈ handlers) (m : SMethod) (mmem : m ∈ methods)
    (i j : Nat) (hi : i < (frameTrace frame handlers methods t).length)
    (hj : j < (frameTrace frame handlers methods t).length)
    (hif : ((frameTrace frame handlers methods t).get ⟨i, hi⟩).isFrame = true)
    (hji : ((frameTrace frame handlers methods t).get ⟨j, hj⟩).isInput =
      true) :
    (frameTrace frame handlers methods t).count
      (Event.frameEvent true h.regIndex) = 1 ∧
    (frameTrace frame handlers methods t).count
      (Event.frameEvent false m.id) = 1 ∧
    j < i := by
  have htr : frameTrace frame handlers methods t =
      (dispatchMethods frame handlers t methods).2 ++
        (handlers.map (fun h' => Event.frameEvent true h'.regIndex) ++
          methods.map (fun m' => Event.frameEvent false m'.id)) := rfl
  have hinputs := dispatchMethods_events_input frame handlers methods t
  have hframes := framePart_events_frame handlers methods
  have hcount0 : ∀ b n,
      (dispatchMethods frame handlers t methods).2.count
        (Event.frameEvent b n) = 0 := by
    intro b n
    rw [List.count_eq_zero]
    intro hmem'
    have := hinputs _ hmem'
    simp [Event.isInput] at this
  have hmapH : handlers.map (fun h' => Event.frameEvent true h'.regIndex) =
      (handlers.map SHandler.regIndex).map
        (fun r => Event.frameEvent true r) := by
    rw [List.map_map]
    rfl
  have hmapM : methods.map (fun m' => Event.frameEvent false m'.id) =
      (methods.map SMethod.id).map (fun n => Event.frameEvent false n) := by
    rw [List.map_map]
    rfl
  refine ⟨?_, ?_, ?_⟩
  · rw [htr, List.count_append, List.count_append, hcount0]
    have h1 : (handlers.map
        (fun h' => Event.frameEvent true h'.regIndex)).count
        (Event.frameEvent true h.regIndex) = 1 := by
      apply List.count_eq_one_of_mem
      · rw [hmapH]
        exact hnd.map (fun a b hab => by simpa using hab)
      · exact List.mem_map_of_mem _ hmem
    have h2 : (methods.map (fun m' => Event.frameEvent false m'.id)).count
        (Event.frameEvent true h.regIndex) = 0 := by
      rw [List.count_eq_zero]
      intro hmem'
      simp only [List.mem_map] at hmem'
      obtain ⟨m', -, hm'⟩ := hmem'
      simp at hm'
    rw [h1, h2]
  · rw [htr, List.count_append, List.count_append, hcount0]
    have h1 : (handlers.map
        (fun h' => Event.frameEvent true h'.regIndex)).count
        (Event.frameEvent false m.id) = 0 := by
      rw [List.count_eq_zero]
      intro hmem'
      simp only [List.mem_map] at hmem'
      obtain ⟨h', -, hh'⟩ := hmem'
      simp at hh'
    have h2 : (methods.map (fun m' => Event.frameEvent false m'.id)).count
        (Event.frameEvent false m.id) = 1 := by
      apply List.count_eq_one_of_mem
      · rw [hmapM]
        exact mnd.map (fun a b hab => by simpa using hab)
      · exact List.mem_map_of_mem _ mmem
    rw [h1, h2]
  · have hlenA : (dispatchMethods frame handlers t methods).2.length ≤ i := by
      by_contra hlt
      push_neg at hlt
      have hget : (frameTrace frame handlers methods t).get ⟨i, hi⟩ =
          (dispatchMethods frame handlers t methods).2.get ⟨i, hlt⟩ := by
        simp only [htr, List.get_eq_getElem]
        exact List.getElem_append_left hlt
      rw [hget] at hif
      simp only [List.get_eq_getElem] at hif
      have hin := hinputs _ (List.getElem_mem hlt)
      rw [event_isInput_not_isFrame _ hin] at hif
      exact Bool.false_ne_true hif
    have hlenB : j < (dispatchMethods frame handlers t methods).2.length := by
      by_contra hge
      push_neg at hge
      have hj' : j < (frameTrace frame handlers methods t).length := hj
      rw [htr] at hj'
      simp only [List.length_append] at hj'
      have hsub : j - (dispatchMethods frame handlers t methods).2.length <
          (handlers.map (fun h' => Event.frameEvent true h'.regIndex) ++
            methods.map (fun m' => Event.frameEvent false m'.id)).length := by
        simp only [List.length_append]
        omega
      have hget : (frameTrace frame handlers methods t).get ⟨j, hj⟩ =
          (handlers.map (fun h' => Event.frameEvent true h'.regIndex) ++
            methods.map (fun m' => Event.frameEvent false m'.id)).get
            ⟨j - (dispatchMethods frame handlers t methods).2.length,
              hsub⟩ := by
        simp only [htr, List.get_eq_getElem]
        exact List.getElem_append_right hge
      rw [hget] at hji
      simp only [List.get_eq_getElem] at hji
      have hfr := hframes _ (List.getElem_mem hsub)
      rw [event_isFrame_not_isInput _ hfr] at hji
      exact Bool.false_ne_true hji
    omega

/-- Witness for C6 on a concrete frame trace: one capturing handler, one
method; the trace is an input event followed by the two frame events. -/
theorem frame_lifecycle_after_inputs_witness :
    (frameTrace 1 [hEx1] [mEx] []).count
      (Event.frameEvent true hEx1.regIndex) = 1 ∧
    (frameTrace 1 [hEx1] [mEx] []).count
      (Event.frameEvent false mEx.id) = 1 ∧
    0 < 1 :=
  frame_lifecycle_after_inputs 1 [hEx1] [mEx] [] (by decide) (by decide)
    hEx1 (List.mem_singleton.mpr rfl) mEx (List.mem_singleton.mpr rfl)
    1 0 (by decide) (by decide) (by decide) (by decide)

end StardustInput
